import Mathlib

/-!
Verification of the MEDLINE review-article exclusion-list generator
(generate_review_exclusion_list.py).

The Python source is shallowly embedded below.  Strings are modelled as
Lean strings; the Python string primitives used by the source
(str.startswith, str.strip, str.split, slicing, len) are embedded as
structurally recursive functions over the underlying character lists so
that every definition is executable and kernel-reducible.
-/

namespace ReviewList

/-- Python str.isspace for the ASCII whitespace characters. -/
def isSpaceChar (c : Char) : Bool :=
  c == ' ' || c == '\t' || c == '\n' || c == '\r' || c == '\x0b' || c == '\x0c'

/-- Strip whitespace characters from both ends of a character list. -/
def pyStripChars (l : List Char) : List Char :=
  ((l.dropWhile isSpaceChar).reverse.dropWhile isSpaceChar).reverse

/-- Python str.strip with no arguments. -/
def pyTrim (s : String) : String :=
  String.mk (pyStripChars s.data)

/-- Test that the second list is an initial segment of the first. -/
def strStarts : List Char → List Char → Bool
  | [], _ => true
  | _ :: _, [] => false
  | p :: ps, c :: cs => p == c && strStarts ps cs

/-- Python s.startswith(pre). -/
def startswith (s pre : String) : Bool :=
  strStarts pre.data s.data

/-- Split a character list at every occurrence of the separator character,
Python str.split with a one-character separator. -/
def splitOnChar (sep : Char) : List Char → List (List Char)
  | [] => [[]]
  | a :: as =>
    let r := splitOnChar sep as
    if a == sep then [] :: r
    else
      match r with
      | [] => [[a]]
      | h :: t => (a :: h) :: t

/-- Python line.split(sep, 1)[1]: everything after the first dash.
Total function; the source only applies it to lines known to contain a dash. -/
def afterCharDash : List Char → List Char
  | [] => []
  | c :: cs => if c == '-' then cs else afterCharDash cs

/-- Everything after the first dash of the string. -/
def afterDash (s : String) : String :=
  String.mk (afterCharDash s.data)

/-- Python s[:n] on strings: the first n characters. -/
def pySlice (s : String) (n : Nat) : String :=
  String.mk (s.data.take n)

/-- Python len on strings: the number of characters. -/
def pyLen (s : String) : Nat :=
  s.data.length

/-- An extracted article record: the dict returned by _extract_if_review. -/
structure Article where
  pmid : String
  title : String
  publication_types : List String
  deriving DecidableEq

/-- The per-block scanning state of _extract_if_review: the pmid, title and
publication_types accumulators, plus the title cursor (current_field
is either the value title or None, modelled by the Boolean inTitle)
and the accumulating current_value. -/
structure ParseState where
  pmid : String
  title : String
  publication_types : List String
  inTitle : Bool
  currentValue : String
  deriving DecidableEq

/-- The state at the top of _extract_if_review before any line is read. -/
def initState : ParseState :=
  { pmid := "", title := "", publication_types := [], inTitle := false, currentValue := "" }

/-- The body of the per-line loop of _extract_if_review. -/
def stepLine (st : ParseState) (line : String) : ParseState :=
  if startswith line "PMID-" then
    { st with pmid := pyTrim (afterDash line) }
  else if startswith line "TI  -" then
    { st with inTitle := true, currentValue := pyTrim (afterDash line) }
  else if startswith line "PT  -" then
    { st with publication_types := st.publication_types ++ [pyTrim (afterDash line)] }
  else if startswith line "      " && st.inTitle then
    { st with currentValue := st.currentValue ++ " " ++ pyTrim line }
  else
    { st with title := if st.inTitle then st.currentValue else st.title,
              inTitle := false, currentValue := "" }

/-- The flush after the loop of _extract_if_review: if the cursor is still
in the title field, the accumulated value becomes the title. -/
def finishState (st : ParseState) : ParseState :=
  if st.inTitle then { st with title := st.currentValue } else st

/-- block.strip().split with a newline separator, as at the top of
_extract_if_review. -/
def blockLines (block : String) : List String :=
  (splitOnChar '\n' (pyStripChars block.data)).map String.mk

/-- The field-extraction part of _extract_if_review: scan all lines of the
block and flush the final title. -/
def extractFields (block : String) : ParseState :=
  finishState ((blockLines block).foldl stepLine initState)

/-- The review_keywords list of _extract_if_review. -/
def review_keywords : List String :=
  ["Review", "Systematic Review", "Meta-Analysis", "review"]

/-- _extract_if_review: extract the fields of the block and return the
article record when some publication type is exactly one of the
keywords and the pmid is non-empty, None otherwise. -/
def extract_if_review (block : String) : Option Article :=
  let st := extractFields block
  if (review_keywords.any fun k => st.publication_types.contains k) ∧ st.pmid ≠ "" then
    some { pmid := st.pmid, title := st.title, publication_types := st.publication_types }
  else
    none

/-- The body of the per-block loop of parse_medline_file: skip blocks that
strip to the empty string, append the extracted record when one is
returned. -/
def parse_block_step (acc : List Article) (block : String) : List Article :=
  if pyTrim block = "" then acc
  else
    match extract_if_review block with
    | some a => acc ++ [a]
    | none => acc

/-- parse_medline_file, at the level of the already split article blocks of
one file: fold the per-block step over the blocks, starting from the
records accumulated so far in self.review_articles. -/
def parse_medline_file (acc : List Article) (blocks : List String) : List Article :=
  blocks.foldl parse_block_step acc

/-- The count printed by the message at the end of parse_medline_file:
the length of self.review_articles after the file is parsed. -/
def parse_report (acc : List Article) (blocks : List String) : Nat :=
  (parse_medline_file acc blocks).length

/-- The four comment lines of the export header. -/
def headerLines (n : Nat) : List String :=
  ["# Review articles exclusion list",
   "# Generated automatically from MEDLINE publication types",
   "# Total reviews found: " ++ toString n,
   "# Format: PMID per line"]

/-- Join lines into file content, one trailing newline per line. -/
def joinLines (ls : List String) : String :=
  String.join (ls.map fun l => l ++ "\n")

/-- The header text written by the first four write calls of
export_for_webapp; the last write ends with two newlines. -/
def headerText (n : Nat) : String :=
  "# Review articles exclusion list\n" ++
  "# Generated automatically from MEDLINE publication types\n" ++
  "# Total reviews found: " ++ toString n ++ "\n" ++
  "# Format: PMID per line\n\n"

/-- The text written for one article inside the loop of export_for_webapp:
one line in each of the three recognized formats, nothing otherwise. -/
def articleLine (format_type : String) (a : Article) : String :=
  if format_type = "pmid" then
    a.pmid ++ "\n"
  else if format_type = "pmid_with_title" then
    "PMID-" ++ a.pmid ++ " # " ++ pySlice a.title 80 ++
      (if 80 < pyLen a.title then "..." else "") ++ "\n"
  else if format_type = "title" then
    a.title ++ "\n"
  else
    ""

/-- export_for_webapp: the full content written to the output file. -/
def export_for_webapp (articles : List Article) (format_type : String) : String :=
  headerText articles.length ++ String.join (articles.map (articleLine format_type))

/-- The warning printed by main for an input path that does not exist. -/
def warnMsg (p : String) : String :=
  "Warning: File " ++ p ++ " not found"

/-- The input-file loop of main.  The file system is a map from paths to
the block list of the file when it exists.  Existing files are parsed
into the accumulated record list; missing files only append a warning. -/
def process_files (fs : String → Option (List String)) (acc : List Article)
    (warns : List String) : List String → List Article × List String
  | [] => (acc, warns)
  | p :: rest =>
    match fs p with
    | some blocks => process_files fs (parse_medline_file acc blocks) warns rest
    | none => process_files fs acc (warns ++ [warnMsg p]) rest

/-- The export step at the end of main: the output file content when the
export runs, None when the record list is empty and export is skipped. -/
def main_export (articles : List Article) (fmt : String) : Option String :=
  if articles.isEmpty then none else some (export_for_webapp articles fmt)

/-- The closing message printed by main. -/
def main_final_message (articles : List Article) : String :=
  if articles.isEmpty then "\nNo review articles found to export."
  else "\nUse this file in your web app as the \x27Review Articles\x27 exclusion list to get the same 136 reviews."

/-! ### Helper lemmas -/

theorem strStarts_cons (p c : Char) (ps cs : List Char) :
    strStarts (p :: ps) (c :: cs) = ((p == c) && strStarts ps cs) := rfl

theorem startswith_TI_not_PMID (l : String) (h : startswith l "TI  -" = true) :
    startswith l "PMID-" = false := by
  unfold startswith at h ⊢
  show strStarts ('P' :: 'M' :: 'I' :: 'D' :: '-' :: []) l.data = false
  cases hd : l.data with
  | nil => rw [hd] at h; simp [strStarts] at h
  | cons c cs =>
    rw [hd] at h
    rw [show ("TI  -".data) = 'T' :: 'I' :: ' ' :: ' ' :: '-' :: [] from rfl] at h
    rw [strStarts_cons] at h ⊢
    have hc : c = 'T' := by
      cases hb : ('T' == c) with
      | false => rw [hb] at h; simp at h
      | true => exact (beq_iff_eq.mp hb).symm
    subst hc
    simp

theorem startswith_PT_not_PMID (l : String) (h : startswith l "PT  -" = true) :
    startswith l "PMID-" = false := by
  unfold startswith at h ⊢
  show strStarts ('P' :: 'M' :: 'I' :: 'D' :: '-' :: []) l.data = false
  cases hd : l.data with
  | nil => rw [hd] at h; simp [strStarts] at h
  | cons c cs =>
    rw [hd] at h
    rw [show ("PT  -".data) = 'P' :: 'T' :: ' ' :: ' ' :: '-' :: [] from rfl] at h
    rw [strStarts_cons] at h ⊢
    cases cs with
    | nil => simp [strStarts] at h
    | cons d ds =>
      have hd2 : d = 'T' := by
        rw [strStarts_cons] at h
        cases hb : ('T' == d) with
        | false => rw [hb] at h; simp at h
        | true => exact (beq_iff_eq.mp hb).symm
      subst hd2
      rw [strStarts_cons]
      simp

theorem startswith_PT_not_TI (l : String) (h : startswith l "PT  -" = true) :
    startswith l "TI  -" = false := by
  unfold startswith at h ⊢
  show strStarts ('T' :: 'I' :: ' ' :: ' ' :: '-' :: []) l.data = false
  cases hd : l.data with
  | nil => rw [hd] at h; simp [strStarts] at h
  | cons c cs =>
    rw [hd] at h
    rw [show ("PT  -".data) = 'P' :: 'T' :: ' ' :: ' ' :: '-' :: [] from rfl] at h
    rw [strStarts_cons] at h ⊢
    have hc : c = 'P' := by
      cases hb : ('P' == c) with
      | false => rw [hb] at h; simp at h
      | true => exact (beq_iff_eq.mp hb).symm
    subst hc
    simp

theorem startswith_spaces_not_PMID (l : String) (h : startswith l "      " = true) :
    startswith l "PMID-" = false := by
  unfold startswith at h ⊢
  show strStarts ('P' :: 'M' :: 'I' :: 'D' :: '-' :: []) l.data = false
  cases hd : l.data with
  | nil => rw [hd] at h; simp [strStarts] at h
  | cons c cs =>
    rw [hd] at h
    rw [show ("      ".data) = ' ' :: ' ' :: ' ' :: ' ' :: ' ' :: ' ' :: [] from rfl] at h
    rw [strStarts_cons] at h ⊢
    have hc : c = ' ' := by
      cases hb : (' ' == c) with
      | false => rw [hb] at h; simp at h
      | true => exact (beq_iff_eq.mp hb).symm
    subst hc
    simp

theorem startswith_spaces_not_TI (l : String) (h : startswith l "      " = true) :
    startswith l "TI  -" = false := by
  unfold startswith at h ⊢
  show strStarts ('T' :: 'I' :: ' ' :: ' ' :: '-' :: []) l.data = false
  cases hd : l.data with
  | nil => rw [hd] at h; simp [strStarts] at h
  | cons c cs =>
    rw [hd] at h
    rw [show ("      ".data) = ' ' :: ' ' :: ' ' :: ' ' :: ' ' :: ' ' :: [] from rfl] at h
    rw [strStarts_cons] at h ⊢
    have hc : c = ' ' := by
      cases hb : (' ' == c) with
      | false => rw [hb] at h; simp at h
      | true => exact (beq_iff_eq.mp hb).symm
    subst hc
    simp

theorem startswith_spaces_not_PT (l : String) (h : startswith l "      " = true) :
    startswith l "PT  -" = false := by
  unfold startswith at h ⊢
  show strStarts ('P' :: 'T' :: ' ' :: ' ' :: '-' :: []) l.data = false
  cases hd : l.data with
  | nil => rw [hd] at h; simp [strStarts] at h
  | cons c cs =>
    rw [hd] at h
    rw [show ("      ".data) = ' ' :: ' ' :: ' ' :: ' ' :: ' ' :: ' ' :: [] from rfl] at h
    rw [strStarts_cons] at h ⊢
    have hc : c = ' ' := by
      cases hb : (' ' == c) with
      | false => rw [hb] at h; simp at h
      | true => exact (beq_iff_eq.mp hb).symm
    subst hc
    simp

theorem stepLine_pmid_of_not_PMID (st : ParseState) (l : String)
    (h : startswith l "PMID-" = false) : (stepLine st l).pmid = st.pmid := by
  unfold stepLine
  rw [h]
  simp only [Bool.false_eq_true, if_false]
  split
  · rfl
  · split
    · rfl
    · split
      · rfl
      · rfl

theorem foldl_pmid_of_not_PMID (ls : List String) :
    ∀ st : ParseState, (∀ l ∈ ls, startswith l "PMID-" = false) →
      (ls.foldl stepLine st).pmid = st.pmid := by
  induction ls with
  | nil => intro st _; rfl
  | cons l rest ih =>
    intro st h
    have h1 : startswith l "PMID-" = false := h l (List.mem_cons_self l rest)
    have h2 : ∀ x ∈ rest, startswith x "PMID-" = false :=
      fun x hx => h x (List.mem_cons_of_mem l hx)
    calc (List.foldl stepLine st (l :: rest)).pmid
        = (List.foldl stepLine (stepLine st l) rest).pmid := rfl
      _ = (stepLine st l).pmid := ih (stepLine st l) h2
      _ = st.pmid := stepLine_pmid_of_not_PMID st l h1

theorem finishState_pmid (st : ParseState) : (finishState st).pmid = st.pmid := by
  unfold finishState
  split
  · rfl
  · rfl

theorem extractFields_pmid_empty (block : String)
    (h : ∀ l ∈ blockLines block, startswith l "PMID-" = false) :
    (extractFields block).pmid = "" := by
  unfold extractFields
  rw [finishState_pmid, foldl_pmid_of_not_PMID _ _ h]
  rfl

theorem extract_if_review_eq (block : String) :
    extract_if_review block =
      if (review_keywords.any fun k => (extractFields block).publication_types.contains k)
          ∧ (extractFields block).pmid ≠ "" then
        some { pmid := (extractFields block).pmid, title := (extractFields block).title,
               publication_types := (extractFields block).publication_types }
      else none := rfl

theorem extract_isSome_iff (block : String) :
    (extract_if_review block).isSome = true ↔
      ((extractFields block).pmid ≠ "" ∧
        ∃ k, k ∈ review_keywords ∧ k ∈ (extractFields block).publication_types) := by
  rw [extract_if_review_eq]
  split
  · rename_i h
    obtain ⟨hany, hpm⟩ := h
    simp only [Option.isSome_some, true_iff]
    refine ⟨hpm, ?_⟩
    obtain ⟨k, hk, hck⟩ := List.any_eq_true.mp hany
    obtain ⟨b, hb, hkb⟩ := List.contains_iff_exists_mem_beq.mp hck
    exact ⟨k, hk, by rw [beq_iff_eq.mp hkb]; exact hb⟩
  · rename_i h
    simp only [Option.isSome_none, Bool.false_eq_true, false_iff]
    intro ⟨hpm, k, hk, hmem⟩
    exact h ⟨List.any_eq_true.mpr ⟨k, hk, List.contains_iff_exists_mem_beq.mpr
      ⟨k, hmem, beq_iff_eq.mpr rfl⟩⟩, hpm⟩

theorem extract_none_of_no_pmid_line (block : String)
    (h : ∀ l ∈ blockLines block, startswith l "PMID-" = false) :
    extract_if_review block = none := by
  rw [extract_if_review_eq, if_neg]
  intro hcon
  exact hcon.2 (extractFields_pmid_empty block h)

/-! ### Claim theorems -/

/-- C1: a parsed block is retained iff its identifier is non-empty and its
publication type list contains, as an exact case-sensitive element, one of
the four review keywords; a block with no PMID line is never retained, and
a publication type that merely contains the word review as a substring,
such as review article, does not qualify. -/
theorem claim_c1 :
    (∀ block : String,
      (extract_if_review block).isSome = true ↔
        ((extractFields block).pmid ≠ "" ∧
          ∃ k, k ∈ review_keywords ∧ k ∈ (extractFields block).publication_types))
    ∧ (∀ block : String, (∀ l ∈ blockLines block, startswith l "PMID-" = false) →
        extract_if_review block = none)
    ∧ extract_if_review "PMID- 77\nTI  - X\nPT  - review article" = none :=
  ⟨extract_isSome_iff, extract_none_of_no_pmid_line, by decide⟩

/-- C1 witness: the no-PMID part of C1 applied to a concrete block that has
a qualifying publication type but no PMID line, and the iff part applied to
a concrete retained block. -/
theorem claim_c1_witness :
    extract_if_review "AB  - x\nPT  - Review" = none ∧
      ((extract_if_review "PMID- 5\nPT  - Review").isSome = true ↔
        ((extractFields "PMID- 5\nPT  - Review").pmid ≠ "" ∧
          ∃ k, k ∈ review_keywords ∧
            k ∈ (extractFields "PMID- 5\nPT  - Review").publication_types)) :=
  ⟨claim_c1.2.1 "AB  - x\nPT  - Review" (by decide),
   claim_c1.1 "PMID- 5\nPT  - Review"⟩

/-- C2 counterexample: in the block PMID- 1, TI  - Foo, PT  - Review,
then a six-space indented line Bar, the indented line that follows the
PT line with no intervening TI line IS appended to the title: the
extracted title is Foo Bar rather than Foo, so a PT line does not end
the title-accumulation cursor. -/
theorem claim_c2_counterexample :
    extract_if_review "PMID- 1\nTI  - Foo\nPT  - Review\n      Bar"
      = some { pmid := "1", title := "Foo Bar", publication_types := ["Review"] }
    ∧ "Foo Bar" ≠ "Foo" := by decide

/-- C2 amended: a line beginning with the PT field tag appends exactly
one entry, the text after the first dash trimmed, to publication_types and
leaves all other parser state unchanged, including the title-accumulation
cursor; an indented line after a PT line is therefore still appended to
the title exactly when the cursor was already in title mode. -/
theorem claim_c2 (st : ParseState) (l : String) (h : startswith l "PT  -" = true) :
    stepLine st l =
      { st with publication_types := st.publication_types ++ [pyTrim (afterDash l)] } := by
  unfold stepLine
  rw [startswith_PT_not_PMID l h, startswith_PT_not_TI l h, h]
  simp

/-- C2 witness: the amended PT rule applied to a concrete state and line. -/
theorem claim_c2_witness :
    stepLine { pmid := "9", title := "", publication_types := ["Journal Article"],
               inTitle := true, currentValue := "T" } "PT  - Review"
      = { pmid := "9", title := "", publication_types := ["Journal Article", "Review"],
          inTitle := true, currentValue := "T" } := by
  rw [claim_c2 _ _ (by decide)]
  decide

theorem stepLine_TI (st : ParseState) (t : String) (ht : startswith t "TI  -" = true) :
    stepLine st t = { st with inTitle := true, currentValue := pyTrim (afterDash t) } := by
  unfold stepLine
  rw [startswith_TI_not_PMID t ht, ht]
  simp

theorem stepLine_contLine (st : ParseState) (c : String)
    (hc : startswith c "      " = true) (hin : st.inTitle = true) :
    stepLine st c = { st with currentValue := st.currentValue ++ " " ++ pyTrim c } := by
  unfold stepLine
  rw [startswith_spaces_not_PMID c hc, startswith_spaces_not_TI c hc,
    startswith_spaces_not_PT c hc, hc, hin]
  simp

/-- C3: a block made of a TI line followed by one continuation line indented
with at least six spaces yields a single title, the trimmed text after the
first dash of the TI line, one space, and the trimmed continuation; in
particular the four-line example block with PMID 12345 yields the record
with identifier 12345, title A Study of Widgets and publication type
Review, and produces the data line 12345 in identifier-only export. -/
theorem claim_c3 :
    (∀ t c : String, startswith t "TI  -" = true → startswith c "      " = true →
      (finishState (List.foldl stepLine initState [t, c])).title
        = pyTrim (afterDash t) ++ " " ++ pyTrim c)
    ∧ extract_if_review "PMID- 12345\nTI  - A Study of\n      Widgets\nPT  - Review"
        = some { pmid := "12345", title := "A Study of Widgets",
                 publication_types := ["Review"] }
    ∧ articleLine "pmid"
        { pmid := "12345", title := "A Study of Widgets", publication_types := ["Review"] }
        = "12345" ++ "\n" := by
  refine ⟨fun t c ht hc => ?_, by decide, by decide⟩
  show (finishState (stepLine (stepLine initState t) c)).title = _
  rw [stepLine_TI initState t ht]
  rw [stepLine_contLine _ c hc rfl]
  rfl

/-- C3 witness: the general continuation rule of C3 applied to a concrete
TI line and a concrete indented continuation line. -/
theorem claim_c3_witness :
    (finishState (List.foldl stepLine initState ["TI  - A Study of", "      Widgets"])).title
      = pyTrim (afterDash "TI  - A Study of") ++ " " ++ pyTrim "      Widgets" :=
  claim_c3.1 "TI  - A Study of" "      Widgets" (by decide) (by decide)

theorem headerText_eq (n : Nat) : headerText n = joinLines (headerLines n) ++ "\n" := by
  simp only [headerText, headerLines, joinLines, List.map, String.join, List.foldl,
    String.append_assoc, String.empty_append]
  rfl

/-- C4 counterexample: with one retained record and the identifier-only
format, the exported file is NOT the four comment header lines directly
followed by the data lines: the code writes an extra blank line between
the header and the data, so the file contains something else. -/
theorem claim_c4_counterexample :
    export_for_webapp [{ pmid := "1", title := "", publication_types := ["Review"] }] "pmid"
      ≠ joinLines (headerLines 1)
        ++ String.join (List.map (articleLine "pmid")
            [({ pmid := "1", title := "", publication_types := ["Review"] } : Article)]) := by
  decide

/-- C4 amended: for every exported run with a recognized format, the output
file consists of a fixed 4-line comment header in which every header line
starts with a hash mark and one header line contains the literal count of
retained records, followed by one blank separator line, followed by exactly
one data entry per retained record in retention order, and nothing else. -/
theorem claim_c4 (articles : List Article) (fmt : String)
    (_hf : fmt = "pmid" ∨ fmt = "pmid_with_title" ∨ fmt = "title") :
    export_for_webapp articles fmt
        = joinLines (headerLines articles.length) ++ "\n"
          ++ String.join (articles.map (articleLine fmt))
      ∧ (headerLines articles.length).length = 4
      ∧ (∀ h ∈ headerLines articles.length, startswith h "#" = true)
      ∧ "# Total reviews found: " ++ toString articles.length
          ∈ headerLines articles.length := by
  refine ⟨?_, rfl, ?_, ?_⟩
  · unfold export_for_webapp
    rw [headerText_eq, String.append_assoc]
  · intro h hmem
    simp only [headerLines, List.mem_cons, List.mem_singleton] at hmem
    rcases hmem with h1 | h2 | h3 | h4 | h5
    · rw [h1]; decide
    · rw [h2]; decide
    · rw [h3]; rfl
    · rw [h4]; decide
    · exact absurd h5 (by simp)
  · simp [headerLines]

/-- C4 witness: the amended export shape applied to a run with one retained
record in identifier-only format. -/
theorem claim_c4_witness :
    export_for_webapp [{ pmid := "1", title := "", publication_types := ["Review"] }] "pmid"
      = joinLines (headerLines 1) ++ "\n" ++ "1\n" := by
  have h := (claim_c4 [{ pmid := "1", title := "", publication_types := ["Review"] }]
    "pmid" (Or.inl rfl)).1
  rw [h]
  decide

/-- C5: in identifier-with-title export mode every retained record produces
one line with the PMID-tagged identifier followed by a title comment; titles
longer than 80 characters are cut to their first 80 characters plus the
ellipsis marker, titles of 80 characters or fewer appear in full with no
marker, and a 90-character title is exported as its first 80 characters
plus the ellipsis marker. -/
theorem claim_c5 :
    (∀ a : Article, 80 < pyLen a.title →
      articleLine "pmid_with_title" a
        = "PMID-" ++ a.pmid ++ " # " ++ pySlice a.title 80 ++ "..." ++ "\n")
    ∧ (∀ a : Article, pyLen a.title ≤ 80 →
      articleLine "pmid_with_title" a = "PMID-" ++ a.pmid ++ " # " ++ a.title ++ "\n")
    ∧ articleLine "pmid_with_title"
        { pmid := "9", title := String.mk (List.replicate 90 'x'), publication_types := [] }
        = "PMID-9 # " ++ String.mk (List.replicate 80 'x') ++ "..." ++ "\n" := by
  refine ⟨fun a h => ?_, fun a h => ?_, by decide⟩
  · simp only [articleLine]
    rw [if_neg (by decide), if_pos trivial, if_pos h]
  · simp only [articleLine]
    rw [if_neg (by decide), if_pos trivial, if_neg (Nat.not_lt.mpr h)]
    have hs : pySlice a.title 80 = a.title := by
      unfold pySlice
      rw [List.take_of_length_le h]
    rw [hs, String.append_empty]

/-- C5 witness: the truncation rule applied to a record with an 81-character
title and the full-title rule applied to a record with a short title. -/
theorem claim_c5_witness :
    articleLine "pmid_with_title"
        { pmid := "7", title := String.mk (List.replicate 81 'a'), publication_types := [] }
      = "PMID-" ++ "7" ++ " # "
        ++ pySlice (String.mk (List.replicate 81 'a')) 80 ++ "..." ++ "\n"
    ∧ articleLine "pmid_with_title"
        { pmid := "8", title := "Short", publication_types := [] }
      = "PMID-" ++ "8" ++ " # " ++ "Short" ++ "\n" :=
  ⟨claim_c5.1 _ (by decide), claim_c5.2.1 _ (by decide)⟩

/-- Two parser states that agree on the title cursor and accumulator, and
whose stored titles agree whenever the cursor is idle.  States related
this way keep producing the same final title. -/
def TRel (s1 s2 : ParseState) : Prop :=
  s1.inTitle = s2.inTitle ∧ s1.currentValue = s2.currentValue ∧
    (s1.inTitle = false → s1.title = s2.title)

theorem TRel_step (l : String) {s1 s2 : ParseState} (h : TRel s1 s2) :
    TRel (stepLine s1 l) (stepLine s2 l) := by
  obtain ⟨h1, h2, h3⟩ := h
  unfold stepLine
  by_cases c1 : startswith l "PMID-" = true
  · rw [c1]
    simp only [if_true]
    exact ⟨h1, h2, h3⟩
  · rw [Bool.not_eq_true] at c1
    rw [c1]
    simp only [Bool.false_eq_true, if_false]
    by_cases c2 : startswith l "TI  -" = true
    · rw [c2]
      simp only [if_true]
      exact ⟨rfl, rfl, by intro hf; cases hf⟩
    · rw [Bool.not_eq_true] at c2
      rw [c2]
      simp only [Bool.false_eq_true, if_false]
      by_cases c3 : startswith l "PT  -" = true
      · rw [c3]
        simp only [if_true]
        exact ⟨h1, h2, h3⟩
      · rw [Bool.not_eq_true] at c3
        rw [c3]
        simp only [Bool.false_eq_true, if_false]
        rw [← h1]
        by_cases c4 : (startswith l "      " && s1.inTitle) = true
        · rw [c4]
          simp only [if_true]
          refine ⟨rfl, ?_, ?_⟩
          · show s1.currentValue ++ " " ++ pyTrim l = s2.currentValue ++ " " ++ pyTrim l
            rw [h2]
          · intro hf
            exact h3 hf
        · rw [Bool.not_eq_true] at c4
          rw [c4]
          simp only [Bool.false_eq_true, if_false]
          refine ⟨rfl, rfl, fun _ => ?_⟩
          show (if s1.inTitle = true then s1.currentValue else s1.title)
              = (if s1.inTitle = true then s2.currentValue else s2.title)
          by_cases hb : s1.inTitle = true
          · rw [if_pos hb, if_pos hb]
            exact h2
          · rw [Bool.not_eq_true] at hb
            rw [hb]
            simp only [Bool.false_eq_true, if_false]
            exact h3 hb

theorem TRel_foldl (ls : List String) :
    ∀ s1 s2 : ParseState, TRel s1 s2 →
      TRel (ls.foldl stepLine s1) (ls.foldl stepLine s2) := by
  induction ls with
  | nil => intro s1 s2 h; exact h
  | cons l rest ih => intro s1 s2 h; exact ih _ _ (TRel_step l h)

theorem TRel_title {s1 s2 : ParseState} (h : TRel s1 s2) :
    (finishState s1).title = (finishState s2).title := by
  obtain ⟨h1, h2, h3⟩ := h
  unfold finishState
  rw [← h1]
  by_cases hb : s1.inTitle = true
  · rw [hb]
    simp only [if_true]
    exact h2
  · rw [Bool.not_eq_true] at hb
    rw [hb]
    simp only [Bool.false_eq_true, if_false]
    exact h3 hb

/-- C6: in every block the last PMID line and the last TI line win: when a
PMID line is followed only by lines that are not PMID lines, the final
identifier is the trimmed text after the dash of that line, and the final
title of a block whose last TI line starts a suffix is exactly the final
title computed from that suffix alone, so earlier accumulated title text
is discarded. -/
theorem claim_c6 :
    (∀ (l1 l2 : List String) (t : String), startswith t "PMID-" = true →
      (∀ l ∈ l2, startswith l "PMID-" = false) →
      (finishState (List.foldl stepLine initState (l1 ++ t :: l2))).pmid
        = pyTrim (afterDash t))
    ∧ (∀ (l1 l2 : List String) (t : String), startswith t "TI  -" = true →
      (∀ l ∈ l2, startswith l "TI  -" = false) →
      (finishState (List.foldl stepLine initState (l1 ++ t :: l2))).title
        = (finishState (List.foldl stepLine initState (t :: l2))).title) := by
  constructor
  · intro l1 l2 t ht hl2
    rw [List.foldl_append]
    have hstep : ∀ st : ParseState,
        List.foldl stepLine st (t :: l2)
          = List.foldl stepLine (stepLine st t) l2 := fun _ => rfl
    rw [hstep, finishState_pmid, foldl_pmid_of_not_PMID l2 _ hl2]
    unfold stepLine
    rw [ht]
    simp
  · intro l1 l2 t ht _
    rw [List.foldl_append]
    have hstep : ∀ st : ParseState,
        List.foldl stepLine st (t :: l2)
          = List.foldl stepLine (stepLine st t) l2 := fun _ => rfl
    rw [hstep, hstep]
    apply TRel_title
    apply TRel_foldl
    rw [stepLine_TI _ t ht, stepLine_TI initState t ht]
    exact ⟨rfl, rfl, by intro hf; cases hf⟩

/-- C6 witness: both last-wins rules applied to a concrete block with two
PMID lines and two TI lines; the extracted record carries the second
identifier and only the second title. -/
theorem claim_c6_witness :
    (finishState (List.foldl stepLine initState
        (["PMID- 1"] ++ "PMID- 2" :: ["TI  - A", "TI  - B"]))).pmid
      = pyTrim (afterDash "PMID- 2")
    ∧ (finishState (List.foldl stepLine initState
        (["PMID- 1", "PMID- 2", "TI  - A"] ++ "TI  - B" :: ["      tail"]))).title
      = (finishState (List.foldl stepLine initState ("TI  - B" :: ["      tail"]))).title :=
  ⟨claim_c6.1 ["PMID- 1"] ["TI  - A", "TI  - B"] "PMID- 2" (by decide) (by decide),
   claim_c6.2 ["PMID- 1", "PMID- 2", "TI  - A"] ["      tail"] "TI  - B"
     (by decide) (by decide)⟩

theorem process_files_cons (fs : String → Option (List String)) (acc : List Article)
    (warns : List String) (p : String) (rest : List String) :
    process_files fs acc warns (p :: rest)
      = match fs p with
        | some blocks => process_files fs (parse_medline_file acc blocks) warns rest
        | none => process_files fs acc (warns ++ [warnMsg p]) rest := rfl

theorem process_files_fst (fs : String → Option (List String)) :
    ∀ (paths : List String) (acc : List Article) (w w' : List String),
      (process_files fs acc w paths).1
        = (process_files fs acc w' (paths.filter fun p => (fs p).isSome)).1 := by
  intro paths
  induction paths with
  | nil => intro acc w w'; rfl
  | cons p rest ih =>
    intro acc w w'
    rw [List.filter_cons]
    cases hfs : fs p with
    | some blocks =>
      rw [if_pos (by rfl)]
      rw [process_files_cons, process_files_cons, hfs]
      show (process_files fs (parse_medline_file acc blocks) w rest).1
          = (process_files fs (parse_medline_file acc blocks) w'
              (rest.filter fun p => (fs p).isSome)).1
      exact ih _ w w'
    | none =>
      rw [if_neg (by simp)]
      rw [process_files_cons, hfs]
      show (process_files fs acc (w ++ [warnMsg p]) rest).1
          = (process_files fs acc w' (rest.filter fun p => (fs p).isSome)).1
      exact ih _ (w ++ [warnMsg p]) w'

theorem process_files_snd (fs : String → Option (List String)) :
    ∀ (paths : List String) (acc : List Article) (w : List String),
      (process_files fs acc w paths).2
        = w ++ (paths.filter fun p => (fs p).isNone).map warnMsg := by
  intro paths
  induction paths with
  | nil => intro acc w; simp [process_files]
  | cons p rest ih =>
    intro acc w
    rw [List.filter_cons]
    cases hfs : fs p with
    | some blocks =>
      rw [if_neg (by simp)]
      rw [process_files_cons, hfs]
      show (process_files fs (parse_medline_file acc blocks) w rest).2
          = w ++ (rest.filter fun p => (fs p).isNone).map warnMsg
      exact ih _ w
    | none =>
      rw [if_pos (by rfl)]
      rw [process_files_cons, hfs]
      show (process_files fs acc (w ++ [warnMsg p]) rest).2
          = w ++ ((p :: rest.filter fun p => (fs p).isNone).map warnMsg)
      rw [ih _ (w ++ [warnMsg p]), List.map_cons, List.append_assoc]
      rfl

/-- C7: a path whose file does not exist causes only a warning: the record
list produced by the input loop is the one produced by the existing paths
alone, in the given order, and the warnings are exactly one per missing
path. -/
theorem claim_c7 (fs : String → Option (List String)) (paths : List String) :
    (process_files fs [] [] paths).1
        = (process_files fs [] [] (paths.filter fun p => (fs p).isSome)).1
    ∧ (process_files fs [] [] paths).2
        = (paths.filter fun p => (fs p).isNone).map warnMsg := by
  refine ⟨process_files_fst fs paths [] [] [], ?_⟩
  rw [process_files_snd fs paths [] []]
  rfl

/-- C8: after all input files are processed, export runs iff the retained
record list is non-empty; with an empty list no output content is produced
and the informational no-records message is the closing message. -/
theorem claim_c8 (articles : List Article) (fmt : String) :
    (main_export articles fmt).isSome = !articles.isEmpty
    ∧ main_export [] fmt = none
    ∧ main_final_message [] = "\nNo review articles found to export." := by
  refine ⟨?_, rfl, rfl⟩
  cases articles with
  | nil => rfl
  | cons a rest => rfl

theorem parse_block_step_append (acc : List Article) (b : String) :
    parse_block_step acc b = acc ++ parse_block_step [] b := by
  unfold parse_block_step
  by_cases h : pyTrim b = ""
  · rw [if_pos h, if_pos h]
    simp
  · rw [if_neg h, if_neg h]
    cases extract_if_review b with
    | none => simp
    | some a => simp

theorem parse_medline_file_append :
    ∀ (blocks : List String) (acc : List Article),
      parse_medline_file acc blocks = acc ++ parse_medline_file [] blocks := by
  intro blocks
  induction blocks with
  | nil => intro acc; simp [parse_medline_file]
  | cons b rest ih =>
    intro acc
    have e1 : parse_medline_file acc (b :: rest)
        = parse_medline_file (parse_block_step acc b) rest := rfl
    have e2 : parse_medline_file [] (b :: rest)
        = parse_medline_file (parse_block_step [] b) rest := rfl
    rw [e1, e2, ih (parse_block_step acc b), ih (parse_block_step [] b),
      parse_block_step_append acc b, List.append_assoc]

/-- C9: the count printed after parsing a file is the cumulative length of
the accumulated record list, the per-file count plus the number of records
accumulated before the file; only with an empty accumulator, as for the
first file, does it equal the own per-file count, and a concrete second
file with one review reports 2 while its own count is 1. -/
theorem claim_c9 :
    (∀ (acc : List Article) (blocks : List String),
      parse_report acc blocks = acc.length + (parse_medline_file [] blocks).length)
    ∧ (∀ blocks : List String,
      parse_report [] blocks = (parse_medline_file [] blocks).length)
    ∧ parse_report (parse_medline_file [] ["PMID- 1\nPT  - Review"])
        ["PMID- 2\nPT  - Review"] = 2
    ∧ (parse_medline_file [] ["PMID- 2\nPT  - Review"]).length = 1 := by
  refine ⟨fun acc blocks => ?_, fun blocks => ?_, by decide, by decide⟩
  · unfold parse_report
    rw [parse_medline_file_append blocks acc, List.length_append]
  · rfl

theorem articleLine_unrecognized (fmt : String) (h1 : fmt ≠ "pmid")
    (h2 : fmt ≠ "pmid_with_title") (h3 : fmt ≠ "title") (a : Article) :
    articleLine fmt a = "" := by
  unfold articleLine
  rw [if_neg h1, if_neg h2, if_neg h3]

theorem strFoldlAppend (xs : List String) :
    ∀ a : String, xs.foldl (fun r s => r ++ s) a
      = a ++ xs.foldl (fun r s => r ++ s) "" := by
  induction xs with
  | nil => intro a; simp [List.foldl]
  | cons x xs ih =>
    intro a
    simp only [List.foldl]
    rw [ih (a ++ x), ih ("" ++ x), String.empty_append, String.append_assoc]

theorem strJoin_cons (x : String) (xs : List String) :
    String.join (x :: xs) = x ++ String.join xs := by
  simp only [String.join, List.foldl]
  rw [strFoldlAppend xs ("" ++ x), String.empty_append]

theorem join_articleLine_unrecognized (fmt : String) (h1 : fmt ≠ "pmid")
    (h2 : fmt ≠ "pmid_with_title") (h3 : fmt ≠ "title") :
    ∀ articles : List Article, String.join (articles.map (articleLine fmt)) = "" := by
  intro articles
  induction articles with
  | nil => rfl
  | cons a rest ih =>
    rw [List.map_cons, strJoin_cons, articleLine_unrecognized fmt h1 h2 h3 a,
      String.empty_append, ih]

/-- C10: for every format selector other than the three recognized ones the
export still produces the output file content consisting of the comment
header with the correct retained-record count and nothing else: every
record is silently dropped and no data line is written. -/
theorem claim_c10 (articles : List Article) (fmt : String) (h1 : fmt ≠ "pmid")
    (h2 : fmt ≠ "pmid_with_title") (h3 : fmt ≠ "title") :
    export_for_webapp articles fmt = headerText articles.length
    ∧ headerText articles.length = joinLines (headerLines articles.length) ++ "\n" := by
  refine ⟨?_, headerText_eq articles.length⟩
  unfold export_for_webapp
  rw [join_articleLine_unrecognized fmt h1 h2 h3 articles, String.append_empty]

/-- C10 witness: the unrecognized-format rule applied to one record and the
format selector csv. -/
theorem claim_c10_witness :
    export_for_webapp [{ pmid := "1", title := "t", publication_types := [] }] "csv"
      = headerText 1
    ∧ headerText 1 = joinLines (headerLines 1) ++ "\n" := by
  have h := claim_c10 [{ pmid := "1", title := "t", publication_types := [] }] "csv"
    (by decide) (by decide) (by decide)
  exact ⟨h.1, h.2⟩

end ReviewList
